import Mathlib

/-!
Verification of the shard-context / dynamic-config specification against the
repository source.

Part A embeds `common/dynamicconfig/collection.go` (the constraint-precedence
resolver `findMatch` / `matchAndConvert` and the `convert*` functions).

Part B models the shard `Context` (task-ID generation, fenced queue-state and
replication-state updates, the `Active -> Invalid/Stopped` life cycle).  The
repository contains only the `Context` interface declaration; the behaviour is
modelled from the specification (see the doc comments marked
`Modelled from the spec:`).
-/

/-! ## Part A: dynamic configuration (`common/dynamicconfig/collection.go`) -/

/-- A dynamically typed Go value (`any`), restricted to the types the
`convert*` functions in `collection.go` inspect.  Numeric payloads are carried
exactly: signed integer types carry an `Int` (a well-formed Go value is within
the type's range), unsigned types carry a `Nat`, and `float32`/`float64` carry
an exact rational standing for the IEEE value held by the Go variable (IEEE
rounding of the *payload itself* is thus abstracted; the dispatch and the
arithmetic applied to the payload follow the source).  `duration` is Go's
`time.Duration`, an `int64` count of nanoseconds.  `other` stands for any
dynamic type not in the list (e.g. a struct), which every `convert*` function
rejects. -/
inductive GoVal where
  | int (v : Int)
  | int8 (v : Int)
  | int16 (v : Int)
  | int32 (v : Int)
  | int64 (v : Int)
  | uint (v : Nat)
  | uint8 (v : Nat)
  | uint16 (v : Nat)
  | uint32 (v : Nat)
  | uint64 (v : Nat)
  | uintptr (v : Nat)
  | float32 (v : Rat)
  | float64 (v : Rat)
  | string (s : String)
  | bool (b : Bool)
  | map (m : List (String × GoVal))
  | duration (ns : Int)
  | other

/-- Go's conversion of a 64-bit unsigned value to `int` (also 64-bit):
reinterpretation of the bits, i.e. wrap into `[-2^63, 2^63)`. -/
def intOfUnsigned64 (n : Nat) : Int :=
  if n < 2 ^ 63 then (n : Int) else (n : Int) - 2 ^ 64

/-- Wrap an integer into the `int64` range `[-2^63, 2^63)`, as Go arithmetic
on `int64`/`time.Duration` does on overflow. -/
def wrap64 (i : Int) : Int :=
  (i + 2 ^ 63) % 2 ^ 64 - 2 ^ 63

/-- Truncation of a rational toward zero, as Go's conversion from a floating
point value to an integer type does. -/
def ratTrunc (q : Rat) : Int :=
  if 0 ≤ q then ⌊q⌋ else ⌈q⌉

/-- `strconv.ParseBool` from the Go standard library: accepts exactly
`1 t T TRUE true True 0 f F FALSE false False`; on anything else it returns
`false` together with a syntax error. -/
def goParseBool (s : String) : Bool × Option String :=
  match s with
  | "1" => (true, none)
  | "t" => (true, none)
  | "T" => (true, none)
  | "TRUE" => (true, none)
  | "true" => (true, none)
  | "True" => (true, none)
  | "0" => (false, none)
  | "f" => (false, none)
  | "F" => (false, none)
  | "FALSE" => (false, none)
  | "false" => (false, none)
  | "False" => (false, none)
  | _ => (false, some "invalid syntax")

/-- `convertInt` from `collection.go`: a type switch accepting every Go
integer type (converted to `int`), returning `(0, error)` otherwise.  Results
are Go pairs `(value, error)`, with the zero value returned alongside an
error exactly as in the source. -/
def convertInt : GoVal → Int × Option String
  | .int v => (v, none)
  | .int8 v => (v, none)
  | .int16 v => (v, none)
  | .int32 v => (v, none)
  | .int64 v => (v, none)
  | .uint v => (intOfUnsigned64 v, none)
  | .uint8 v => ((v : Int), none)
  | .uint16 v => ((v : Int), none)
  | .uint32 v => ((v : Int), none)
  | .uint64 v => (intOfUnsigned64 v, none)
  | .uintptr v => (intOfUnsigned64 v, none)
  | _ => (0, some "value type is not int")

/-- `convertFloat` from `collection.go`: accepts `float32`/`float64`, then
falls back to `convertInt` (Go converts the `int` to `float64`; exact in the
rational model), else `(0, error)`. -/
def convertFloat (val : GoVal) : Rat × Option String :=
  match val with
  | .float32 v => (v, none)
  | .float64 v => (v, none)
  | v =>
    match convertInt v with
    | (ival, none) => ((ival : Rat), none)
    | _ => (0, some "value type is not float64")

/-- `convertDuration` from `collection.go`.  `parse` stands for
`timestamp.ParseDurationDefaultSeconds` (defined outside this repository),
returning Go-style `(duration, error)`.  A `time.Duration` passes through, a
string is parsed, and numeric values are treated as seconds:
`time.Duration(ival) * time.Second` for integers (int64 multiplication, hence
`wrap64`), `time.Duration(fval * float64(time.Second))` for floats
(multiplication then truncation toward zero). -/
def convertDuration (parse : String → Int × Option String) : GoVal → Int × Option String
  | .duration d => (d, none)
  | .string s =>
    match parse s with
    | (d, none) => (d, none)
    | (_, some e) => (0, some ("failed to parse duration: " ++ e))
  | v =>
    match convertInt v with
    | (ival, none) => (wrap64 (ival * 1000000000), none)
    | _ =>
      match convertFloat v with
      | (fval, none) => (wrap64 (ratTrunc (fval * 1000000000)), none)
      | _ => (0, some "value not convertible to Duration")

/-- `convertString` from `collection.go`. -/
def convertString : GoVal → String × Option String
  | .string s => (s, none)
  | _ => ("", some "value type is not string")

/-- `convertBool` from `collection.go`: accepts `bool`, parses a `string`
with `strconv.ParseBool`, else `(false, error)`. -/
def convertBool : GoVal → Bool × Option String
  | .bool b => (b, none)
  | .string s => goParseBool s
  | _ => (false, some "value type is not bool")

/-- `convertMap` from `collection.go`: accepts `map[string]any`, else the
zero value (Go's nil map, modelled by the empty association list) and an
error. -/
def convertMap : GoVal → List (String × GoVal) × Option String
  | .map m => (m, none)
  | _ => ([], some "value type is not map")

/-- The dynamic types `convertInt` accepts (every Go integer type). -/
def isIntKind : GoVal → Bool
  | .int _ => true
  | .int8 _ => true
  | .int16 _ => true
  | .int32 _ => true
  | .int64 _ => true
  | .uint _ => true
  | .uint8 _ => true
  | .uint16 _ => true
  | .uint32 _ => true
  | .uint64 _ => true
  | .uintptr _ => true
  | _ => false

/-- The dynamic types carrying a Go floating point value. -/
def isFloatKind : GoVal → Bool
  | .float32 _ => true
  | .float64 _ => true
  | _ => false

/-- The dynamic types `convertDuration` converts rather than rejects:
durations, strings, and bare numerics. -/
def isDurationKind (v : GoVal) : Bool :=
  match v with
  | .duration _ => true
  | .string _ => true
  | _ => isIntKind v || isFloatKind v

/-- `ConstrainedValue` from the dynamicconfig package: a dynamically typed
value together with the `Constraints` under which it applies.  `Constraints`
is a struct compared with Go `==`; it is kept abstract as a type `C` with
decidable equality. -/
structure ConstrainedValue (C : Type) where
  constraints : C
  value : GoVal

/-- `TypedConstrainedValue[T]` from the dynamicconfig package: a typed
default value together with its `Constraints`. -/
structure TypedConstrainedValue (C T : Type) where
  constraints : C
  value : T

/-- The two errors `findMatch` can return (`errKeyNotPresent`,
`errNoMatchingConstraint` in `collection.go`). -/
inductive FindErr where
  | keyNotPresent
  | noMatchingConstraint
deriving DecidableEq

/-- The inner loop `for _, cv := range cvs { if m == cv.Constraints ... }` of
`findMatch`: first client-supplied constrained value whose constraints equal
`m`. -/
def findConstrained {C : Type} [DecidableEq C] (m : C) :
    List (ConstrainedValue C) → Option GoVal
  | [] => none
  | cv :: rest => if m = cv.constraints then some cv.value else findConstrained m rest

/-- The second inner loop of `findMatch`, over the typed defaults. -/
def findTyped {C T : Type} [DecidableEq C] (m : C) :
    List (TypedConstrainedValue C T) → Option T
  | [] => none
  | cv :: rest => if m = cv.constraints then some cv.value else findTyped m rest

/-- The outer loop of `findMatch` over the precedence list: at each precedence
entry, the client-supplied constrained values are checked before the typed
defaults; the first match is returned (boxed to `any` via `box`, Go's
interface conversion).  If no entry matches, `errNoMatchingConstraint`. -/
def findMatchLoop {C T : Type} [DecidableEq C] (box : T → GoVal)
    (cvs : List (ConstrainedValue C)) (defaultCVs : List (TypedConstrainedValue C T)) :
    List C → Except FindErr GoVal
  | [] => .error .noMatchingConstraint
  | m :: rest =>
    match findConstrained m cvs with
    | some v => .ok v
    | none =>
      match findTyped m defaultCVs with
      | some v => .ok (box v)
      | none => findMatchLoop box cvs defaultCVs rest

/-- `findMatch` from `collection.go`: if both lists are empty the key is not
present; otherwise scan the precedence list via `findMatchLoop`. -/
def findMatch {C T : Type} [DecidableEq C] (box : T → GoVal)
    (cvs : List (ConstrainedValue C)) (defaultCVs : List (TypedConstrainedValue C T))
    (precedence : List C) : Except FindErr GoVal :=
  if cvs.length + defaultCVs.length = 0 then .error .keyNotPresent
  else findMatchLoop box cvs defaultCVs precedence

/-- The `defaultCVs` computation at the head of `matchAndConvert`: a `nil`
typed-default list (`cdef = none`) is replaced by the one-element list holding
the global default under the zero `Constraints` value `c0`. -/
def effectiveDefaults {C T : Type} (c0 : C) (dflt : T)
    (cdef : Option (List (TypedConstrainedValue C T))) : List (TypedConstrainedValue C T) :=
  match cdef with
  | none => [⟨c0, dflt⟩]
  | some l => l

/-- `matchAndConvert` from `collection.go`.  The client lookup
`c.client.GetValue(key)` is abstracted as the list `cvs`; `convert` returns a
Go-style `(value, error)` pair; `box` is Go's boxing of the typed default
into `any`; logging is pure side channel and is omitted.  On a failed match
the global default is converted; on a failed conversion of a matched value
the global default is converted instead; the final `typedVal` is returned
even if that conversion also failed. -/
def matchAndConvert {C T : Type} [DecidableEq C] (c0 : C) (box : T → GoVal)
    (cvs : List (ConstrainedValue C)) (dflt : T)
    (cdef : Option (List (TypedConstrainedValue C T)))
    (convert : GoVal → T × Option String) (precedence : List C) : T :=
  let defaultCVs := effectiveDefaults c0 dflt cdef
  let res := findMatch box cvs defaultCVs precedence
  let val : GoVal := match res with
    | .ok v => v
    | .error _ => box dflt
  let matchFailed : Bool := match res with
    | .ok _ => false
    | .error _ => true
  let p := convert val
  let p := if p.2.isSome && !matchFailed then convert (box dflt) else p
  p.1

/-- The specification's description of the lookup, written with library
combinators rather than the source's loops: scan the precedence entries in
order and return the value of the first constrained value whose constraints
field equals the entry, checking the client-supplied values before the typed
defaults at each level; `errKeyNotPresent` when both lists are empty,
`errNoMatchingConstraint` when nothing matches. -/
def findMatchSpec {C T : Type} [DecidableEq C] (box : T → GoVal)
    (cvs : List (ConstrainedValue C)) (defaultCVs : List (TypedConstrainedValue C T))
    (precedence : List C) : Except FindErr GoVal :=
  if cvs.isEmpty ∧ defaultCVs.isEmpty then .error .keyNotPresent
  else
    match precedence.findSome? (fun m =>
        ((cvs.find? (fun cv => cv.constraints == m)).map (fun cv => cv.value)) <|>
        ((defaultCVs.find? (fun cv => cv.constraints == m)).map (fun cv => box cv.value))) with
    | some v => .ok v
    | none => .error .noMatchingConstraint

/-! ## Part B: the shard `Context`

The repository's `src` contains only the `Context` interface declaration
(`package shard`); its implementation is not present.  The model below is
therefore built from the specification: §4.1 (lease/range allocator as a
conditional increment of the persisted range ID), §4.2 (in-memory task-ID
cursor within `[rangeID*rangeSize, rangeID*rangeSize + rangeSize)`, renewing
the range on exhaustion), §4.4 (queue-state tracker persisting
caller-supplied state, fenced by the range ID), §4.5 (monotone replication
acknowledgement updates), §4.6/§7 (the `Active -> Invalid | Stopped` state
machine; every call on an `Invalid`/`Stopped` context fails fast with
`OwnershipLost`). -/

/-- Association-list lookup by key (Go map read). -/
def lookupKey {κ β : Type} [DecidableEq κ] (k : κ) : List (κ × β) → Option β
  | [] => none
  | (k', v) :: rest => if k = k' then some v else lookupKey k rest

/-- Association-list update: replace the binding of `k`, or insert one (Go
map write). -/
def setKey {κ β : Type} [DecidableEq κ] (k : κ) (v : β) : List (κ × β) → List (κ × β)
  | [] => [(k, v)]
  | (k', v') :: rest => if k = k' then (k, v) :: rest else (k', v') :: setKey k v rest

/-- Modelled from the spec: §4.5 replication acknowledgement info update
(`UpdateRemoteClusterInfo` / `UpdateRemoteReaderInfo`, whose implementation is
absent from `src`).  Per key (cluster name or reader ID) the recorded pair
`(ackTaskID, ackTimestamp)` is advanced; an incoming acknowledgement that is
stale — lower ack level, or equal level with no newer timestamp — is silently
dropped rather than applied (§3 replication-state invariant, §8 scenario where
an equal ack level with a newer timestamp updates only the timestamp). -/
def updateAckInfo {κ : Type} [DecidableEq κ] (m : List (κ × Nat × Nat))
    (k : κ) (ack time : Nat) : List (κ × Nat × Nat) :=
  match lookupKey k m with
  | none => setKey k (ack, time) m
  | some (ca, ct) =>
    if ack < ca ∨ (ack = ca ∧ time ≤ ct) then m else setKey k (ack, time) m

/-- Modelled from the spec: §4.5 DLQ acknowledgement level update
(`UpdateReplicatorDLQAckLevel`, implementation absent from `src`).  The
recorded level per source cluster only moves forward; a level not above the
recorded one is dropped. -/
def updateLevel {κ : Type} [DecidableEq κ] (m : List (κ × Nat)) (k : κ) (lvl : Nat) :
    List (κ × Nat) :=
  match lookupKey k m with
  | none => setKey k lvl m
  | some cur => if lvl ≤ cur then m else setKey k lvl m

/-- The acknowledgement level recorded for `k` (0 when none is recorded). -/
def ackLevelOf {κ : Type} [DecidableEq κ] (m : List (κ × Nat × Nat)) (k : κ) : Nat :=
  match lookupKey k m with
  | none => 0
  | some (ca, _) => ca

/-- Modelled from the spec: per-category queue state, reduced to the reader
acknowledgement watermark the claims concern (§3 **Queue State**). -/
structure QueueState where
  watermark : Nat
deriving DecidableEq, Repr

/-- Modelled from the spec: §4.6 shard context states.  `Initializing` is
omitted: the model starts contexts at `Active` (the state `acquire`
produces); `invalid` and `stopped` are the two terminal states. -/
inductive ShardStatus where
  | active
  | invalid
  | stopped
deriving DecidableEq, Repr

/-- The single error condition of the model (§7 taxonomy entry relevant to
the claims): a fencing rejection / call on a dead context. -/
inductive ShardErr where
  | ownershipLost
deriving DecidableEq, Repr

/-- Modelled from the spec: the durable shard record held by the storage
engine (§6): the persisted range ID (the fencing token), the per-category
queue states, and the per-source-cluster replicator DLQ ack levels. -/
structure Store where
  rangeID : Nat
  queueStates : List (Nat × QueueState)
  dlqAckLevels : List (String × Nat)
deriving DecidableEq, Repr

/-- Modelled from the spec: the in-memory shard `Context` (§3 **Shard**,
§4.6): life-cycle status, the range ID it believes it owns, the range size,
the task-ID cursor within the owned block, and the in-memory replication
tracking maps (per remote cluster and per reader). -/
structure Shard where
  status : ShardStatus
  rangeID : Nat
  rangeSize : Nat
  cursor : Nat
  remoteClusters : List (String × Nat × Nat)
  remoteReaders : List (Nat × Nat × Nat)
deriving DecidableEq, Repr

/-- The exclusive upper bound of the owned task-ID block
`[rangeID*rangeSize, rangeID*rangeSize + rangeSize)` (§3 **Range**). -/
def maxTaskID (sh : Shard) : Nat :=
  sh.rangeID * sh.rangeSize + sh.rangeSize

/-- Whether the context is in a terminal state (§4.6 `Invalid`/`Stopped`). -/
def isDead (sh : Shard) : Prop :=
  sh.status = .invalid ∨ sh.status = .stopped

instance (sh : Shard) : Decidable (isDead sh) := by
  unfold isDead; infer_instance

/-- Modelled from the spec: §4.1 lease acquisition.  The controller reads the
persisted record, computes `newRangeID = persisted.rangeID + 1` and persists
the increment (the conditional write trivially succeeds in this sequential
model); the resulting context is `Active`, owns block
`[newRangeID*rangeSize, newRangeID*rangeSize + rangeSize)` and its cursor
starts at the block's first ID. -/
def acquire (st : Store) (rangeSize : Nat) : Store × Shard :=
  let r := st.rangeID + 1
  ({ st with rangeID := r },
   { status := .active, rangeID := r, rangeSize := rangeSize,
     cursor := r * rangeSize, remoteClusters := [], remoteReaders := [] })

/-- A competing owner's range increment against the persisted record (the
simulation of ownership loss used in §8). -/
def bumpRange (st : Store) : Store :=
  { st with rangeID := st.rangeID + 1 }

/-- Modelled from the spec: `UnloadForOwnershipLost` — graceful unload into
the terminal `Stopped` state (§4.6). -/
def unloadForOwnershipLost (sh : Shard) : Shard :=
  { sh with status := .stopped }

/-- Modelled from the spec: `ControllableContext.FinishStop` — terminal
`Stopped` state (§4.6). -/
def finishStop (sh : Shard) : Shard :=
  { sh with status := .stopped }

/-- Modelled from the spec: §4.2 `GenerateTaskID`.  On a dead context the
call fails fast with `OwnershipLost` (§7).  Otherwise, if the cursor is
inside the owned block the next ID is handed out from pure in-memory
arithmetic; if the block is exhausted the allocator renews the range with the
conditional increment of §4.1 — on success the new block starts where the old
one ended and its first ID is handed out, on failure (the persisted range ID
no longer matches, i.e. someone else advanced it) the context transitions
irreversibly to `Invalid` and the call fails with `OwnershipLost`. -/
def generateTaskID (st : Store) (sh : Shard) : Except ShardErr Nat × Store × Shard :=
  if isDead sh then (.error .ownershipLost, st, sh)
  else if sh.cursor < maxTaskID sh then
    (.ok sh.cursor, st, { sh with cursor := sh.cursor + 1 })
  else if st.rangeID = sh.rangeID then
    let r := st.rangeID + 1
    (.ok (r * sh.rangeSize),
     { st with rangeID := r },
     { sh with rangeID := r, cursor := r * sh.rangeSize + 1 })
  else
    (.error .ownershipLost, st, { sh with status := .invalid })

/-- The loop of `GenerateTaskIDs`: `number` successive single-ID generations;
the first failure aborts the batch and returns the error (the Go loop
returns `nil, err`, discarding any IDs already drawn). -/
def generateTaskIDsLoop : Nat → Store → Shard → Except ShardErr (List Nat) × Store × Shard
  | 0, st, sh => (.ok [], st, sh)
  | n + 1, st, sh =>
    match generateTaskID st sh with
    | (.ok id, st', sh') =>
      match generateTaskIDsLoop n st' sh' with
      | (.ok ids, st'', sh'') => (.ok (id :: ids), st'', sh'')
      | (.error e, st'', sh'') => (.error e, st'', sh'')
    | (.error e, st', sh') => (.error e, st', sh')

/-- Modelled from the spec: §4.2 `GenerateTaskIDs(number)`; a call on a dead
context fails fast (§7), otherwise the single-ID generator is iterated. -/
def generateTaskIDs (number : Nat) (st : Store) (sh : Shard) :
    Except ShardErr (List Nat) × Store × Shard :=
  if isDead sh then (.error .ownershipLost, st, sh)
  else generateTaskIDsLoop number st sh

/-- Modelled from the spec: §4.4 `SetQueueState`.  Dead contexts fail fast
(§7).  The write is fenced by the current range ID: a stale range is rejected
with `OwnershipLost` and flips the context to `Invalid`; otherwise the
caller-supplied state is persisted as given (the tracker does not itself
decide watermark policy). -/
def setQueueState (category : Nat) (state : QueueState) (st : Store) (sh : Shard) :
    Except ShardErr Unit × Store × Shard :=
  if isDead sh then (.error .ownershipLost, st, sh)
  else if st.rangeID = sh.rangeID then
    (.ok (), { st with queueStates := setKey category state st.queueStates }, sh)
  else
    (.error .ownershipLost, st, { sh with status := .invalid })

/-- Modelled from the spec: §4.5 `UpdateReplicatorDLQAckLevel` — a fenced,
monotone persisted update of the per-source-cluster DLQ ack level. -/
def updateReplicatorDLQAckLevel (cluster : String) (lvl : Nat) (st : Store) (sh : Shard) :
    Except ShardErr Unit × Store × Shard :=
  if isDead sh then (.error .ownershipLost, st, sh)
  else if st.rangeID = sh.rangeID then
    (.ok (), { st with dlqAckLevels := updateLevel st.dlqAckLevels cluster lvl }, sh)
  else
    (.error .ownershipLost, st, { sh with status := .invalid })

/-- Modelled from the spec: §4.5 `UpdateRemoteClusterInfo` — in-memory
monotone update of a remote cluster's `(ackTaskID, ackTimestamp)`; a void
method in the interface, a guarded no-op on a dead context. -/
def updateRemoteClusterInfo (cluster : String) (ack time : Nat) (sh : Shard) : Shard :=
  if isDead sh then sh
  else { sh with remoteClusters := updateAckInfo sh.remoteClusters cluster ack time }

/-- Modelled from the spec: §4.5 `UpdateRemoteReaderInfo` — monotone update
of a reader's `(ackTaskID, ackTimestamp)`; fails fast on a dead context. -/
def updateRemoteReaderInfo (readerID ack time : Nat) (st : Store) (sh : Shard) :
    Except ShardErr Unit × Store × Shard :=
  if isDead sh then (.error .ownershipLost, st, sh)
  else (.ok (), st, { sh with remoteReaders := updateAckInfo sh.remoteReaders readerID ack time })

/-- Modelled from the spec: `AssertOwnership` — a fenced no-op write: it
fails with `OwnershipLost` (invalidating the context) exactly when the
persisted range ID no longer matches the context's. -/
def assertOwnership (st : Store) (sh : Shard) : Except ShardErr Unit × Store × Shard :=
  if isDead sh then (.error .ownershipLost, st, sh)
  else if st.rangeID = sh.rangeID then (.ok (), st, sh)
  else (.error .ownershipLost, st, { sh with status := .invalid })

/-- The fallible `Context` calls the claims quantify over (the interface
methods that return an `error`). -/
inductive Op where
  | generateTaskID
  | generateTaskIDs (number : Nat)
  | setQueueState (category : Nat) (state : QueueState)
  | updateReplicatorDLQAckLevel (cluster : String) (lvl : Nat)
  | updateRemoteReaderInfo (readerID ack time : Nat)
  | assertOwnership
deriving DecidableEq, Repr

/-- Dispatch of a call; the result is the list of task IDs the call returned
to the caller (empty for non-generator calls and failed calls, matching the
Go methods' returns), the call's error status, and the post-states. -/
def callStep (op : Op) (st : Store) (sh : Shard) :
    Except ShardErr (List Nat) × Store × Shard :=
  match op with
  | .generateTaskID =>
    match generateTaskID st sh with
    | (.ok id, st', sh') => (.ok [id], st', sh')
    | (.error e, st', sh') => (.error e, st', sh')
  | .generateTaskIDs n => generateTaskIDs n st sh
  | .setQueueState cat q =>
    match setQueueState cat q st sh with
    | (.ok _, st', sh') => (.ok [], st', sh')
    | (.error e, st', sh') => (.error e, st', sh')
  | .updateReplicatorDLQAckLevel c lvl =>
    match updateReplicatorDLQAckLevel c lvl st sh with
    | (.ok _, st', sh') => (.ok [], st', sh')
    | (.error e, st', sh') => (.error e, st', sh')
  | .updateRemoteReaderInfo r a t =>
    match updateRemoteReaderInfo r a t st sh with
    | (.ok _, st', sh') => (.ok [], st', sh')
    | (.error e, st', sh') => (.error e, st', sh')
  | .assertOwnership =>
    match assertOwnership st sh with
    | (.ok _, st', sh') => (.ok [], st', sh')
    | (.error e, st', sh') => (.error e, st', sh')

/-- One step of the whole system: a call on the context, one of the void
life-cycle signals, the void remote-cluster-info update, or a competing
owner's range increment in the store. -/
inductive Act where
  | call (op : Op)
  | updateRemoteClusterInfo (cluster : String) (ack time : Nat)
  | unload
  | finishStop
  | bump
deriving DecidableEq, Repr

/-- Execute one `Act`; the returned list holds the task IDs handed to the
caller by that step. -/
def actStep (a : Act) (st : Store) (sh : Shard) : List Nat × Store × Shard :=
  match a with
  | .call op =>
    match callStep op st sh with
    | (.ok ids, st', sh') => (ids, st', sh')
    | (.error _, st', sh') => ([], st', sh')
  | .updateRemoteClusterInfo c a t => ([], st, updateRemoteClusterInfo c a t sh)
  | .unload => ([], st, unloadForOwnershipLost sh)
  | .finishStop => ([], st, finishStop sh)
  | .bump => ([], bumpRange st, sh)

/-- Run a sequence of acts, concatenating all task IDs returned to callers. -/
def run : List Act → Store → Shard → List Nat × Store × Shard
  | [], st, sh => ([], st, sh)
  | a :: rest, st, sh =>
    let r := actStep a st sh
    let r' := run rest r.2.1 r.2.2
    (r.1 ++ r'.1, r'.2.1, r'.2.2)

/-- The cursor invariant of an in-memory context: the cursor never leaves the
closed range `[_, maxTaskID]` of its owned block, and the block is
non-empty. -/
def ShardInv (sh : Shard) : Prop :=
  sh.cursor ≤ maxTaskID sh ∧ 1 ≤ sh.rangeSize

instance (sh : Shard) : Decidable (ShardInv sh) := by
  unfold ShardInv; infer_instance

/-! ## Theorems, Part A: dynamic configuration -/

theorem findConstrained_eq_find? {C : Type} [DecidableEq C] (m : C)
    (cvs : List (ConstrainedValue C)) :
    findConstrained m cvs =
      (cvs.find? (fun cv => cv.constraints == m)).map (fun cv => cv.value) := by
  induction cvs with
  | nil => rfl
  | cons cv rest ih =>
    by_cases h : m = cv.constraints
    · simp [findConstrained, List.find?, h]
    · have h' : (cv.constraints == m) = false := by
        simp only [beq_eq_false_iff_ne, ne_eq]
        exact fun hh => h hh.symm
      simp [findConstrained, List.find?, h, h', ih]

theorem findTyped_eq_find? {C T : Type} [DecidableEq C] (m : C)
    (cvs : List (TypedConstrainedValue C T)) :
    findTyped m cvs =
      (cvs.find? (fun cv => cv.constraints == m)).map (fun cv => cv.value) := by
  induction cvs with
  | nil => rfl
  | cons cv rest ih =>
    by_cases h : m = cv.constraints
    · simp [findTyped, List.find?, h]
    · have h' : (cv.constraints == m) = false := by
        simp only [beq_eq_false_iff_ne, ne_eq]
        exact fun hh => h hh.symm
      simp [findTyped, List.find?, h, h', ih]

theorem findMatchLoop_eq_findSome? {C T : Type} [DecidableEq C] (box : T → GoVal)
    (cvs : List (ConstrainedValue C)) (defaultCVs : List (TypedConstrainedValue C T))
    (precedence : List C) :
    findMatchLoop box cvs defaultCVs precedence =
      match precedence.findSome? (fun m =>
          findConstrained m cvs <|> (findTyped m defaultCVs).map box) with
      | some v => .ok v
      | none => .error .noMatchingConstraint := by
  induction precedence with
  | nil => rfl
  | cons m rest ih =>
    simp only [findMatchLoop, List.findSome?_cons]
    cases hc : findConstrained m cvs with
    | some v => simp [hc, Option.orElse]
    | none =>
      cases ht : findTyped m defaultCVs with
      | some v => simp [hc, ht, Option.orElse]
      | none => simp [hc, ht, Option.orElse, ih]

/-- C3: for every key, default list and precedence list, the lookup
(`findMatch`) scans the precedence constraints in order and returns the value
of the first constrained value whose constraints field equals the precedence
entry, checking the client-supplied constrained values before the typed
defaults at each precedence level — i.e. it coincides with the
first-matching-constraint-wins function `findMatchSpec` written from the
specification's words. -/
theorem claim_C3_findMatch_first_matching_constraint_wins {C T : Type} [DecidableEq C]
    (box : T → GoVal) (cvs : List (ConstrainedValue C))
    (defaultCVs : List (TypedConstrainedValue C T)) (precedence : List C) :
    findMatch box cvs defaultCVs precedence = findMatchSpec box cvs defaultCVs precedence := by
  have hfun : (fun m => findConstrained m cvs <|> (findTyped m defaultCVs).map box) =
      (fun m => ((cvs.find? (fun cv => cv.constraints == m)).map (fun cv => cv.value)) <|>
        ((defaultCVs.find? (fun cv => cv.constraints == m)).map (fun cv => box cv.value))) := by
    funext m
    rw [findConstrained_eq_find?, findTyped_eq_find?, Option.map_map]
    rfl
  by_cases h : cvs = [] ∧ defaultCVs = []
  · obtain ⟨h1, h2⟩ := h
    subst h1; subst h2
    rfl
  · have h1 : ¬ (cvs.length + defaultCVs.length = 0) := by
      intro hc
      exact h ⟨List.length_eq_zero.mp (by omega), List.length_eq_zero.mp (by omega)⟩
    have h2 : ¬ (cvs.isEmpty ∧ defaultCVs.isEmpty) := by
      intro hc
      exact h ⟨List.isEmpty_iff.mp hc.1, List.isEmpty_iff.mp hc.2⟩
    rw [findMatch, findMatchSpec, if_neg h1, if_neg h2, findMatchLoop_eq_findSome?, hfun]

theorem findMatchLoop_ne_keyNotPresent {C T : Type} [DecidableEq C] (box : T → GoVal)
    (cvs : List (ConstrainedValue C)) (defaultCVs : List (TypedConstrainedValue C T))
    (precedence : List C) :
    findMatchLoop box cvs defaultCVs precedence ≠ .error .keyNotPresent := by
  induction precedence with
  | nil => simp [findMatchLoop]
  | cons m rest ih =>
    simp only [findMatchLoop]
    cases hc : findConstrained m cvs with
    | some v => simp
    | none =>
      cases ht : findTyped m defaultCVs with
      | some v => simp
      | none => exact ih

theorem findConstrained_eq_none_iff {C : Type} [DecidableEq C] (m : C)
    (cvs : List (ConstrainedValue C)) :
    findConstrained m cvs = none ↔ ∀ cv ∈ cvs, cv.constraints ≠ m := by
  induction cvs with
  | nil => simp [findConstrained]
  | cons cv rest ih =>
    by_cases h : m = cv.constraints
    · simp [findConstrained, h]
    · simp [findConstrained, h, ih]
      intro _
      exact fun hh => h hh.symm

theorem findTyped_eq_none_iff {C T : Type} [DecidableEq C] (m : C)
    (cvs : List (TypedConstrainedValue C T)) :
    findTyped m cvs = none ↔ ∀ cv ∈ cvs, cv.constraints ≠ m := by
  induction cvs with
  | nil => simp [findTyped]
  | cons cv rest ih =>
    by_cases h : m = cv.constraints
    · simp [findTyped, h]
    · simp [findTyped, h, ih]
      intro _
      exact fun hh => h hh.symm

theorem findMatchLoop_error_iff {C T : Type} [DecidableEq C] (box : T → GoVal)
    (cvs : List (ConstrainedValue C)) (defaultCVs : List (TypedConstrainedValue C T))
    (precedence : List C) :
    findMatchLoop box cvs defaultCVs precedence = .error .noMatchingConstraint ↔
      ∀ m ∈ precedence, findConstrained m cvs = none ∧ findTyped m defaultCVs = none := by
  induction precedence with
  | nil => simp [findMatchLoop]
  | cons m rest ih =>
    simp only [findMatchLoop]
    cases hc : findConstrained m cvs with
    | some v => simp [hc]
    | none =>
      cases ht : findTyped m defaultCVs with
      | some v => simp [hc, ht]
      | none => simp [hc, ht, ih]

/-- C8: `findMatch` returns `errKeyNotPresent` exactly when both the
client-supplied constrained-value list and the typed-default list are empty;
it returns `errNoMatchingConstraint` exactly when the lists are not both
empty but no precedence entry equals any entry's constraints; and in either
error case `matchAndConvert` substitutes the global default value (it returns
the conversion of the boxed default). -/
theorem claim_C8_findMatch_error_taxonomy {C T : Type} [DecidableEq C]
    (box : T → GoVal) (cvs : List (ConstrainedValue C))
    (defaultCVs : List (TypedConstrainedValue C T)) (precedence : List C)
    (c0 : C) (dflt : T) (cdef : Option (List (TypedConstrainedValue C T)))
    (convert : GoVal → T × Option String) :
    (findMatch box cvs defaultCVs precedence = .error .keyNotPresent ↔
      cvs = [] ∧ defaultCVs = []) ∧
    (findMatch box cvs defaultCVs precedence = .error .noMatchingConstraint ↔
      ¬(cvs = [] ∧ defaultCVs = []) ∧
        ∀ m ∈ precedence, (∀ cv ∈ cvs, cv.constraints ≠ m) ∧
          (∀ d ∈ defaultCVs, d.constraints ≠ m)) ∧
    (∀ e, findMatch box cvs (effectiveDefaults c0 dflt cdef) precedence = .error e →
      matchAndConvert c0 box cvs dflt cdef convert precedence = (convert (box dflt)).1) := by
  refine ⟨?_, ?_, ?_⟩
  · by_cases h : cvs.length + defaultCVs.length = 0
    · have h1 : cvs = [] := List.length_eq_zero.mp (by omega)
      have h2 : defaultCVs = [] := List.length_eq_zero.mp (by omega)
      simp [findMatch, h, h1, h2]
    · have h1 : ¬(cvs = [] ∧ defaultCVs = []) := by
        rintro ⟨rfl, rfl⟩
        simp at h
      rw [findMatch, if_neg h]
      simp only [h1, iff_false]
      exact findMatchLoop_ne_keyNotPresent box cvs defaultCVs precedence
  · by_cases h : cvs.length + defaultCVs.length = 0
    · have h1 : cvs = [] := List.length_eq_zero.mp (by omega)
      have h2 : defaultCVs = [] := List.length_eq_zero.mp (by omega)
      simp [findMatch, h, h1, h2]
    · have h1 : ¬(cvs = [] ∧ defaultCVs = []) := by
        rintro ⟨rfl, rfl⟩
        simp at h
      rw [findMatch, if_neg h, findMatchLoop_error_iff]
      simp only [h1, not_false_iff, true_and]
      constructor
      · intro hall m hm
        obtain ⟨hc, ht⟩ := hall m hm
        exact ⟨(findConstrained_eq_none_iff m cvs).mp hc,
               (findTyped_eq_none_iff m defaultCVs).mp ht⟩
      · intro hall m hm
        obtain ⟨hc, ht⟩ := hall m hm
        exact ⟨(findConstrained_eq_none_iff m cvs).mpr hc,
               (findTyped_eq_none_iff m defaultCVs).mpr ht⟩
  · intro e h
    simp [matchAndConvert, h]

/-- C4: `matchAndConvert` always returns a value of the requested type `T`
and never propagates an error (its return type has no error component, as in
the source): when no constrained value matches it converts the global
default, and when conversion of a matched value fails it falls back to
converting the global default instead of failing. -/
theorem claim_C4_matchAndConvert_soft_failure {C T : Type} [DecidableEq C]
    (box : T → GoVal) (cvs : List (ConstrainedValue C)) (precedence : List C)
    (c0 : C) (dflt : T) (cdef : Option (List (TypedConstrainedValue C T)))
    (convert : GoVal → T × Option String) :
    (∀ e, findMatch box cvs (effectiveDefaults c0 dflt cdef) precedence = .error e →
      matchAndConvert c0 box cvs dflt cdef convert precedence = (convert (box dflt)).1) ∧
    (∀ v, findMatch box cvs (effectiveDefaults c0 dflt cdef) precedence = .ok v →
      (convert v).2 = none →
      matchAndConvert c0 box cvs dflt cdef convert precedence = (convert v).1) ∧
    (∀ v, findMatch box cvs (effectiveDefaults c0 dflt cdef) precedence = .ok v →
      (convert v).2 ≠ none →
      matchAndConvert c0 box cvs dflt cdef convert precedence = (convert (box dflt)).1) := by
  refine ⟨?_, ?_, ?_⟩
  · intro e h
    simp [matchAndConvert, h]
  · intro v h hc
    simp [matchAndConvert, h, hc]
  · intro v h hc
    simp [matchAndConvert, h, Option.isSome_iff_ne_none, hc]

/-- Witness for C4: a matched value of the wrong dynamic type (a string where
an int is requested) makes `matchAndConvert` fall back to converting the
global default `7`. -/
theorem claim_C4_witness :
    matchAndConvert 0 (fun i => GoVal.int i) [⟨1, GoVal.string "x"⟩] (7 : Int) none
      convertInt [1] = 7 := by
  have h := (claim_C4_matchAndConvert_soft_failure (fun i => GoVal.int i)
      [⟨1, GoVal.string "x"⟩] [1] 0 (7 : Int) none convertInt).2.2
      (GoVal.string "x") (by rfl) (by simp [convertInt])
  simpa [convertInt] using h

/-- Witness for C8: with both lists empty `findMatch` reports
`errKeyNotPresent`, and `matchAndConvert` then falls back to the global
default `5`. -/
theorem claim_C8_witness :
    findMatch (fun i => GoVal.int i) ([] : List (ConstrainedValue Nat))
        ([] : List (TypedConstrainedValue Nat Int)) [0] = .error .keyNotPresent ∧
    matchAndConvert 0 (fun i => GoVal.int i) ([] : List (ConstrainedValue Nat)) (5 : Int)
        (some []) convertInt [] = 5 := by
  constructor
  · exact (claim_C8_findMatch_error_taxonomy (fun i => GoVal.int i) [] [] [0] 0 (5 : Int)
      (some []) convertInt).1.mpr ⟨rfl, rfl⟩
  · have h := (claim_C8_findMatch_error_taxonomy (fun i => GoVal.int i) [] [] [] 0 (5 : Int)
      (some []) convertInt).2.2 .keyNotPresent (by rfl)
    simpa [convertInt] using h

/-- C9: `convertDuration` passes a `time.Duration` through unchanged, parses
a string with the default-seconds duration parser (propagating a wrapped
parse error), interprets every bare numeric value — any Go integer type via
`convertInt`, and `float32`/`float64` — as a count of seconds
(`int64`-wrapped multiplication by `time.Second` for integers; multiplication
then truncation toward zero for floats), and returns zero with an error for
every other input type. -/
theorem claim_C9_convertDuration_cases (parse : String → Int × Option String) :
    (∀ d, convertDuration parse (.duration d) = (d, none)) ∧
    (∀ s d, parse s = (d, none) → convertDuration parse (.string s) = (d, none)) ∧
    (∀ s d e, parse s = (d, some e) →
      convertDuration parse (.string s) = (0, some ("failed to parse duration: " ++ e))) ∧
    (∀ v i, convertInt v = (i, none) →
      convertDuration parse v = (wrap64 (i * 1000000000), none)) ∧
    (∀ q, convertDuration parse (.float32 q) = (wrap64 (ratTrunc (q * 1000000000)), none)) ∧
    (∀ q, convertDuration parse (.float64 q) = (wrap64 (ratTrunc (q * 1000000000)), none)) ∧
    (∀ v, isDurationKind v = false →
      convertDuration parse v = (0, some "value not convertible to Duration")) := by
  refine ⟨fun d => rfl, ?_, ?_, ?_, fun q => rfl, fun q => rfl, ?_⟩
  · intro s d h
    simp [convertDuration, h]
  · intro s d e h
    simp [convertDuration, h]
  · intro v i h
    cases v <;> simp [convertInt] at h <;>
      simp [convertDuration, convertInt, ← h]
  · intro v h
    cases v <;>
      simp_all [isDurationKind, isIntKind, isFloatKind, convertDuration, convertInt, convertFloat]

/-- Witness for C9: the bare integer `3` is interpreted as 3 seconds
(3000000000 nanoseconds). -/
theorem claim_C9_witness :
    convertDuration (fun _ => ((0 : Int), some "unused")) (.int 3) = (3000000000, none) := by
  have h := (claim_C9_convertDuration_cases
      (fun _ => ((0 : Int), some "unused"))).2.2.2.1 (.int 3) 3 rfl
  have hw : wrap64 (3 * 1000000000) = 3000000000 := by decide
  rw [hw] at h
  exact h

/-- C10: every conversion function is total (they are plain functions in the
embedding, mirroring that the Go switches never panic): for every input they
either succeed or return the zero value of the target type together with an
error.  `convertInt` succeeds exactly on the Go integer types (not on
strings); `convertFloat` on floats and integers; `convertBool` exactly on
bools and on strings `strconv.ParseBool` accepts; `convertString` exactly on
strings; `convertMap` exactly on maps. -/
theorem claim_C10_converters_total :
    (∀ v, ((convertInt v).2 = none ↔ isIntKind v = true) ∧
      ((convertInt v).2 ≠ none → (convertInt v).1 = 0)) ∧
    (∀ v, ((convertFloat v).2 = none ↔ (isIntKind v || isFloatKind v) = true) ∧
      ((convertFloat v).2 ≠ none → (convertFloat v).1 = 0)) ∧
    (∀ v, ((convertBool v).2 = none ↔
        (∃ b, v = .bool b) ∨ ∃ s, v = .string s ∧ (goParseBool s).2 = none) ∧
      ((convertBool v).2 ≠ none → (convertBool v).1 = false)) ∧
    (∀ v, ((convertString v).2 = none ↔ ∃ s, v = .string s) ∧
      ((convertString v).2 ≠ none → (convertString v).1 = "")) ∧
    (∀ v, ((convertMap v).2 = none ↔ ∃ m, v = .map m) ∧
      ((convertMap v).2 ≠ none → (convertMap v).1 = [])) := by
  have hpb : ∀ s, (goParseBool s).2 ≠ none → (goParseBool s).1 = false := by
    intro s
    unfold goParseBool
    split <;> simp
  refine ⟨?_, ?_, ?_, ?_, ?_⟩
  · intro v
    cases v <;> simp [convertInt, isIntKind]
  · intro v
    cases v <;> simp [convertFloat, convertInt, isIntKind, isFloatKind]
  · intro v
    cases v <;> simp [convertBool, goParseBool]
    case string s => exact hpb s
  · intro v
    cases v <;> simp [convertString]
  · intro v
    cases v <;> simp [convertMap]

/-- Witness for C10: `convertInt` rejects a string and returns the zero
value 0; `convertBool` accepts the string "true". -/
theorem claim_C10_witness :
    (convertInt (GoVal.string "x")).1 = 0 ∧
    ((convertBool (GoVal.string "true")).2 = none) := by
  constructor
  · exact (claim_C10_converters_total.1 (GoVal.string "x")).2 (by simp [convertInt])
  · exact (claim_C10_converters_total.2.2.1 (GoVal.string "true")).1.mpr
      (Or.inr ⟨"true", rfl, by decide⟩)

/-! ## Theorems, Part B: shard context -/

theorem lookupKey_setKey_self {κ β : Type} [DecidableEq κ] (k : κ) (v : β)
    (m : List (κ × β)) : lookupKey k (setKey k v m) = some v := by
  induction m with
  | nil => simp [setKey, lookupKey]
  | cons p rest ih =>
    obtain ⟨k', v'⟩ := p
    by_cases h : k = k'
    · simp [setKey, h, lookupKey]
    · simp [setKey, h, lookupKey, ih]

theorem updateAckInfo_lookup {κ : Type} [DecidableEq κ] (m : List (κ × Nat × Nat))
    (k : κ) (a t : Nat) :
    ∃ ca ct, lookupKey k (updateAckInfo m k a t) = some (ca, ct) ∧
      (a < ca ∨ (a = ca ∧ t ≤ ct)) := by
  unfold updateAckInfo
  cases hl : lookupKey k m with
  | none => exact ⟨a, t, by simp [lookupKey_setKey_self], Or.inr ⟨rfl, le_refl t⟩⟩
  | some p =>
    obtain ⟨ca, ct⟩ := p
    by_cases hc : a < ca ∨ (a = ca ∧ t ≤ ct)
    · exact ⟨ca, ct, by simp [hc, hl], hc⟩
    · exact ⟨a, t, by simp [hc, lookupKey_setKey_self], Or.inr ⟨rfl, le_refl t⟩⟩

theorem updateLevel_lookup {κ : Type} [DecidableEq κ] (m : List (κ × Nat))
    (k : κ) (lvl : Nat) :
    ∃ cur, lookupKey k (updateLevel m k lvl) = some cur ∧ lvl ≤ cur := by
  unfold updateLevel
  cases hl : lookupKey k m with
  | none => exact ⟨lvl, by simp [lookupKey_setKey_self], le_refl lvl⟩
  | some cur =>
    by_cases hc : lvl ≤ cur
    · exact ⟨cur, by simp [hc, hl], hc⟩
    · exact ⟨lvl, by simp [hc, lookupKey_setKey_self], le_refl lvl⟩

theorem updateAckInfo_drop {κ : Type} [DecidableEq κ] (m : List (κ × Nat × Nat))
    (k : κ) (a t ca ct : Nat) (hl : lookupKey k m = some (ca, ct))
    (hc : a < ca ∨ (a = ca ∧ t ≤ ct)) : updateAckInfo m k a t = m := by
  unfold updateAckInfo
  rw [hl]
  simp [hc]

theorem updateLevel_drop {κ : Type} [DecidableEq κ] (m : List (κ × Nat))
    (k : κ) (lvl cur : Nat) (hl : lookupKey k m = some cur) (hc : lvl ≤ cur) :
    updateLevel m k lvl = m := by
  unfold updateLevel
  rw [hl]
  simp [hc]

theorem updateAckInfo_idem {κ : Type} [DecidableEq κ] (m : List (κ × Nat × Nat))
    (k : κ) (a t : Nat) :
    updateAckInfo (updateAckInfo m k a t) k a t = updateAckInfo m k a t := by
  obtain ⟨ca, ct, hl, hc⟩ := updateAckInfo_lookup m k a t
  exact updateAckInfo_drop _ k a t ca ct hl hc

/-- C5: the replication acknowledgement updates are idempotent and monotone
per (cluster, reader) pair, and a stale (out-of-order) acknowledgement is
ignored rather than applied: this holds for the `(ackTaskID, ackTimestamp)`
update `updateAckInfo` shared by `UpdateRemoteClusterInfo` (cluster keys) and
`UpdateRemoteReaderInfo` (reader keys), for the DLQ level update
`updateLevel` of `UpdateReplicatorDLQAckLevel`, and lifts to the context
level (`updateRemoteClusterInfo`).  In particular applying ack level 5 and
then ack level 3 for the same key leaves the recorded level at 5 (the
`a' < a` conjuncts). -/
theorem claim_C5_replication_ack_monotone {κ : Type} [DecidableEq κ] :
    (∀ (m : List (κ × Nat × Nat)) k a t,
      updateAckInfo (updateAckInfo m k a t) k a t = updateAckInfo m k a t) ∧
    (∀ (m : List (κ × Nat × Nat)) k a t,
      ackLevelOf m k ≤ ackLevelOf (updateAckInfo m k a t) k) ∧
    (∀ (m : List (κ × Nat × Nat)) k a t ca ct,
      lookupKey k m = some (ca, ct) → a < ca → updateAckInfo m k a t = m) ∧
    (∀ (m : List (κ × Nat × Nat)) k a t a' t', a' < a →
      updateAckInfo (updateAckInfo m k a t) k a' t' = updateAckInfo m k a t) ∧
    (∀ (m : List (κ × Nat)) k lvl,
      updateLevel (updateLevel m k lvl) k lvl = updateLevel m k lvl) ∧
    (∀ (m : List (κ × Nat)) k lvl cur,
      lookupKey k m = some cur → lvl ≤ cur → updateLevel m k lvl = m) ∧
    (∀ (m : List (κ × Nat)) k lvl lvl', lvl' < lvl →
      updateLevel (updateLevel m k lvl) k lvl' = updateLevel m k lvl) ∧
    (∀ (sh : Shard) c a t,
      updateRemoteClusterInfo c a t (updateRemoteClusterInfo c a t sh) =
        updateRemoteClusterInfo c a t sh) := by
  refine ⟨fun m k a t => updateAckInfo_idem m k a t, ?_, ?_, ?_, ?_, ?_, ?_, ?_⟩
  · intro m k a t
    unfold updateAckInfo ackLevelOf
    cases hl : lookupKey k m with
    | none => simp
    | some p =>
      obtain ⟨ca, ct⟩ := p
      by_cases hc : a < ca ∨ (a = ca ∧ t ≤ ct)
      · simp [hc, hl]
      · have : ca ≤ a := by omega
        simp [hc, hl, lookupKey_setKey_self, this]
  · intro m k a t ca ct hl ha
    exact updateAckInfo_drop m k a t ca ct hl (Or.inl ha)
  · intro m k a t a' t' ha
    obtain ⟨ca, ct, hl, hc⟩ := updateAckInfo_lookup m k a t
    exact updateAckInfo_drop _ k a' t' ca ct hl (Or.inl (by omega))
  · intro m k lvl
    obtain ⟨cur, hl, hc⟩ := updateLevel_lookup m k lvl
    exact updateLevel_drop _ k lvl cur hl hc
  · intro m k lvl cur hl hc
    exact updateLevel_drop m k lvl cur hl hc
  · intro m k lvl lvl' ha
    obtain ⟨cur, hl, hc⟩ := updateLevel_lookup m k lvl
    exact updateLevel_drop _ k lvl' cur hl (by omega)
  · intro sh c a t
    by_cases hd : isDead sh
    · simp [updateRemoteClusterInfo, hd]
    · have hd' : ¬ isDead { sh with
          remoteClusters := updateAckInfo sh.remoteClusters c a t } := by
        simpa [isDead] using hd
      simp [updateRemoteClusterInfo, hd, hd']
      rw [updateAckInfo_idem]

/-- Witness for C5: applying ack level 5 then ack level 3 for cluster "b"
leaves the recorded level at 5, and the stale update is dropped entirely. -/
theorem claim_C5_witness :
    updateAckInfo (updateAckInfo ([] : List (String × Nat × Nat)) "b" 5 10) "b" 3 11 =
      updateAckInfo ([] : List (String × Nat × Nat)) "b" 5 10 ∧
    ackLevelOf (updateAckInfo (updateAckInfo ([] : List (String × Nat × Nat)) "b" 5 10)
      "b" 3 11) "b" = 5 := by
  have h := (claim_C5_replication_ack_monotone (κ := String)).2.2.2.1
      ([] : List (String × Nat × Nat)) "b" 5 10 3 11 (by omega)
  exact ⟨h, by rw [h]; rfl⟩

theorem generateTaskID_props (st : Store) (sh : Shard) (h : ShardInv sh) :
    ShardInv (generateTaskID st sh).2.2 ∧
    sh.cursor ≤ (generateTaskID st sh).2.2.cursor ∧
    (generateTaskID st sh).2.2.rangeSize = sh.rangeSize ∧
    (∀ i, (generateTaskID st sh).1 = .ok i →
      sh.cursor ≤ i ∧ i < (generateTaskID st sh).2.2.cursor) := by
  obtain ⟨hinv, hsz⟩ := h
  unfold maxTaskID at hinv
  have hmul : (sh.rangeID + 1) * sh.rangeSize =
      sh.rangeID * sh.rangeSize + sh.rangeSize := Nat.succ_mul _ _
  unfold generateTaskID ShardInv maxTaskID
  split_ifs with hd hcur hr
  · exact ⟨⟨hinv, hsz⟩, Nat.le_refl _, rfl, fun i hi => by cases hi⟩
  · dsimp only
    refine ⟨⟨by omega, hsz⟩, by omega, rfl, ?_⟩
    intro i hi
    cases hi
    omega
  · dsimp only
    simp only [hr, hmul]
    refine ⟨⟨by omega, hsz⟩, by omega, trivial, ?_⟩
    intro i hi
    cases hi
    omega
  · exact ⟨⟨hinv, hsz⟩, Nat.le_refl _, rfl, fun i hi => by cases hi⟩

theorem generateTaskIDsLoop_props (n : Nat) (st : Store) (sh : Shard) (h : ShardInv sh) :
    ∀ res stf shf, generateTaskIDsLoop n st sh = (res, stf, shf) →
      ShardInv shf ∧ sh.cursor ≤ shf.cursor ∧ shf.rangeSize = sh.rangeSize ∧
      ∀ ids, res = .ok ids →
        (∀ x ∈ ids, sh.cursor ≤ x ∧ x < shf.cursor) ∧ List.Pairwise (· < ·) ids := by
  induction n generalizing st sh with
  | zero =>
    intro res stf shf hEq
    simp only [generateTaskIDsLoop, Prod.mk.injEq] at hEq
    obtain ⟨rfl, rfl, rfl⟩ := hEq
    refine ⟨h, Nat.le_refl _, rfl, ?_⟩
    intro ids hids
    cases hids
    constructor
    · intro x hx
      cases hx
    · exact List.Pairwise.nil
  | succ n ih =>
    intro res stf shf hEq
    simp only [generateTaskIDsLoop] at hEq
    have hg := generateTaskID_props st sh h
    rcases hE : generateTaskID st sh with ⟨r1, st', sh'⟩
    rw [hE] at hEq hg
    dsimp only at hEq hg
    obtain ⟨hinv', hc', hsz', hid'⟩ := hg
    cases r1 with
    | error e =>
      simp only [Prod.mk.injEq] at hEq
      obtain ⟨rfl, rfl, rfl⟩ := hEq
      exact ⟨hinv', hc', hsz', fun ids hids => by cases hids⟩
    | ok id =>
      dsimp only at hEq
      obtain ⟨hlo, hhi⟩ := hid' id rfl
      rcases hL : generateTaskIDsLoop n st' sh' with ⟨r2, st'', sh''⟩
      have hrec := ih st' sh' hinv' r2 st'' sh'' hL
      obtain ⟨hinv'', hc'', hsz'', hids''⟩ := hrec
      rw [hL] at hEq
      cases r2 with
      | error e =>
        simp only [Prod.mk.injEq] at hEq
        obtain ⟨rfl, rfl, rfl⟩ := hEq
        exact ⟨hinv'', Nat.le_trans hc' hc'', by rw [hsz'', hsz'],
          fun ids hids => by cases hids⟩
      | ok ids =>
        simp only [Prod.mk.injEq] at hEq
        obtain ⟨rfl, rfl, rfl⟩ := hEq
        refine ⟨hinv'', Nat.le_trans hc' hc'', by rw [hsz'', hsz'], ?_⟩
        intro ids' hids'
        cases hids'
        obtain ⟨hbnd, hpw⟩ := hids'' ids rfl
        constructor
        · intro x hx
          cases hx with
          | head => exact ⟨hlo, Nat.lt_of_lt_of_le hhi hc''⟩
          | tail _ hx' =>
            obtain ⟨h1, h2⟩ := hbnd x hx'
            exact ⟨Nat.le_trans hc' h1, h2⟩
        · rw [List.pairwise_cons]
          refine ⟨?_, hpw⟩
          intro x hx
          obtain ⟨h1, _⟩ := hbnd x hx
          exact Nat.lt_of_lt_of_le hhi h1

theorem generateTaskIDs_props (n : Nat) (st : Store) (sh : Shard) (h : ShardInv sh) :
    ∀ res stf shf, generateTaskIDs n st sh = (res, stf, shf) →
      ShardInv shf ∧ sh.cursor ≤ shf.cursor ∧ shf.rangeSize = sh.rangeSize ∧
      ∀ ids, res = .ok ids →
        (∀ x ∈ ids, sh.cursor ≤ x ∧ x < shf.cursor) ∧ List.Pairwise (· < ·) ids := by
  intro res stf shf hEq
  unfold generateTaskIDs at hEq
  by_cases hd : isDead sh
  · rw [if_pos hd] at hEq
    simp only [Prod.mk.injEq] at hEq
    obtain ⟨rfl, rfl, rfl⟩ := hEq
    exact ⟨h, Nat.le_refl _, rfl, fun ids hids => by cases hids⟩
  · rw [if_neg hd] at hEq
    exact generateTaskIDsLoop_props n st sh h res stf shf hEq

theorem shardInv_status (sh : Shard) (s : ShardStatus) (h : ShardInv sh) :
    ShardInv { sh with status := s } := by
  unfold ShardInv maxTaskID at *
  exact h

theorem shardInv_readers (sh : Shard) (m : List (Nat × Nat × Nat)) (h : ShardInv sh) :
    ShardInv { sh with remoteReaders := m } := by
  unfold ShardInv maxTaskID at *
  exact h

theorem callStep_props (op : Op) (st : Store) (sh : Shard) (h : ShardInv sh) :
    ∀ res stf shf, callStep op st sh = (res, stf, shf) →
      ShardInv shf ∧ sh.cursor ≤ shf.cursor ∧ shf.rangeSize = sh.rangeSize ∧
      ∀ ids, res = .ok ids →
        (∀ x ∈ ids, sh.cursor ≤ x ∧ x < shf.cursor) ∧ List.Pairwise (· < ·) ids := by
  intro res stf shf hEq
  cases op with
  | generateTaskID =>
    simp only [callStep] at hEq
    have hg := generateTaskID_props st sh h
    rcases hE : generateTaskID st sh with ⟨r1, st', sh'⟩
    rw [hE] at hEq hg
    dsimp only at hEq hg
    obtain ⟨hinv', hc', hsz', hid'⟩ := hg
    cases r1 with
    | error e =>
      simp only [Prod.mk.injEq] at hEq
      obtain ⟨rfl, rfl, rfl⟩ := hEq
      exact ⟨hinv', hc', hsz', fun ids hids => by cases hids⟩
    | ok id =>
      simp only [Prod.mk.injEq] at hEq
      obtain ⟨rfl, rfl, rfl⟩ := hEq
      obtain ⟨hlo, hhi⟩ := hid' id rfl
      refine ⟨hinv', hc', hsz', ?_⟩
      intro ids hids
      cases hids
      constructor
      · intro x hx
        cases hx with
        | head => exact ⟨hlo, hhi⟩
        | tail _ hx' => cases hx'
      · exact List.pairwise_singleton _ _
  | generateTaskIDs n =>
    simp only [callStep] at hEq
    exact generateTaskIDs_props n st sh h res stf shf hEq
  | setQueueState cat q =>
    simp only [callStep, setQueueState] at hEq
    split_ifs at hEq with hd hr <;>
      simp only [Prod.mk.injEq] at hEq
    all_goals rcases hEq with ⟨hEq1, rfl, rfl⟩
    · cases hEq1
      exact ⟨h, Nat.le_refl _, rfl, fun ids hids => by cases hids⟩
    · cases hEq1
      refine ⟨h, Nat.le_refl _, rfl, ?_⟩
      intro ids hids
      cases hids
      constructor
      · intro x hx
        cases hx
      · exact List.Pairwise.nil
    · cases hEq1
      exact ⟨shardInv_status sh .invalid h, Nat.le_refl _, rfl,
        fun ids hids => by cases hids⟩
  | updateReplicatorDLQAckLevel c lvl =>
    simp only [callStep, updateReplicatorDLQAckLevel] at hEq
    split_ifs at hEq with hd hr <;>
      simp only [Prod.mk.injEq] at hEq
    all_goals rcases hEq with ⟨hEq1, rfl, rfl⟩
    · cases hEq1
      exact ⟨h, Nat.le_refl _, rfl, fun ids hids => by cases hids⟩
    · cases hEq1
      refine ⟨h, Nat.le_refl _, rfl, ?_⟩
      intro ids hids
      cases hids
      constructor
      · intro x hx
        cases hx
      · exact List.Pairwise.nil
    · cases hEq1
      exact ⟨shardInv_status sh .invalid h, Nat.le_refl _, rfl,
        fun ids hids => by cases hids⟩
  | updateRemoteReaderInfo r a t =>
    simp only [callStep, updateRemoteReaderInfo] at hEq
    split_ifs at hEq with hd <;>
      simp only [Prod.mk.injEq] at hEq
    all_goals rcases hEq with ⟨hEq1, rfl, rfl⟩
    · cases hEq1
      exact ⟨h, Nat.le_refl _, rfl, fun ids hids => by cases hids⟩
    · cases hEq1
      refine ⟨shardInv_readers sh _ h, Nat.le_refl _, rfl, ?_⟩
      intro ids hids
      cases hids
      constructor
      · intro x hx
        cases hx
      · exact List.Pairwise.nil
  | assertOwnership =>
    simp only [callStep, assertOwnership] at hEq
    split_ifs at hEq with hd hr <;>
      simp only [Prod.mk.injEq] at hEq
    all_goals rcases hEq with ⟨hEq1, rfl, rfl⟩
    · cases hEq1
      exact ⟨h, Nat.le_refl _, rfl, fun ids hids => by cases hids⟩
    · cases hEq1
      refine ⟨h, Nat.le_refl _, rfl, ?_⟩
      intro ids hids
      cases hids
      constructor
      · intro x hx
        cases hx
      · exact List.Pairwise.nil
    · cases hEq1
      exact ⟨shardInv_status sh .invalid h, Nat.le_refl _, rfl,
        fun ids hids => by cases hids⟩

theorem shardInv_clusters (sh : Shard) (m : List (String × Nat × Nat)) (h : ShardInv sh) :
    ShardInv { sh with remoteClusters := m } := by
  unfold ShardInv maxTaskID at *
  exact h

theorem actStep_props (a : Act) (st : Store) (sh : Shard) (h : ShardInv sh) :
    ∀ ids stf shf, actStep a st sh = (ids, stf, shf) →
      ShardInv shf ∧ sh.cursor ≤ shf.cursor ∧
      (∀ x ∈ ids, sh.cursor ≤ x ∧ x < shf.cursor) ∧ List.Pairwise (· < ·) ids := by
  intro ids stf shf hEq
  cases a with
  | call op =>
    simp only [actStep] at hEq
    rcases hC : callStep op st sh with ⟨r, st', sh'⟩
    have hp := callStep_props op st sh h r st' sh' hC
    obtain ⟨hinv', hc', _, hids'⟩ := hp
    rw [hC] at hEq
    cases r with
    | ok ids0 =>
      dsimp only at hEq
      simp only [Prod.mk.injEq] at hEq
      obtain ⟨rfl, rfl, rfl⟩ := hEq
      obtain ⟨hbnd, hpw⟩ := hids' ids0 rfl
      exact ⟨hinv', hc', hbnd, hpw⟩
    | error e =>
      dsimp only at hEq
      simp only [Prod.mk.injEq] at hEq
      obtain ⟨rfl, rfl, rfl⟩ := hEq
      refine ⟨hinv', hc', ?_, List.Pairwise.nil⟩
      intro x hx
      cases hx
  | updateRemoteClusterInfo c a t =>
    simp only [actStep, Prod.mk.injEq] at hEq
    obtain ⟨rfl, rfl, rfl⟩ := hEq
    unfold updateRemoteClusterInfo
    by_cases hd : isDead sh
    · rw [if_pos hd]
      refine ⟨h, Nat.le_refl _, ?_, List.Pairwise.nil⟩
      intro x hx
      cases hx
    · rw [if_neg hd]
      refine ⟨shardInv_clusters sh _ h, Nat.le_refl _, ?_, List.Pairwise.nil⟩
      intro x hx
      cases hx
  | unload =>
    simp only [actStep, Prod.mk.injEq] at hEq
    obtain ⟨rfl, rfl, rfl⟩ := hEq
    refine ⟨shardInv_status sh .stopped h, Nat.le_refl _, ?_, List.Pairwise.nil⟩
    intro x hx
    cases hx
  | finishStop =>
    simp only [actStep, Prod.mk.injEq] at hEq
    obtain ⟨rfl, rfl, rfl⟩ := hEq
    refine ⟨shardInv_status sh .stopped h, Nat.le_refl _, ?_, List.Pairwise.nil⟩
    intro x hx
    cases hx
  | bump =>
    simp only [actStep, Prod.mk.injEq] at hEq
    obtain ⟨rfl, rfl, rfl⟩ := hEq
    refine ⟨h, Nat.le_refl _, ?_, List.Pairwise.nil⟩
    intro x hx
    cases hx

theorem run_props (acts : List Act) (st : Store) (sh : Shard) (h : ShardInv sh) :
    ∀ ids stf shf, run acts st sh = (ids, stf, shf) →
      ShardInv shf ∧ sh.cursor ≤ shf.cursor ∧
      (∀ x ∈ ids, sh.cursor ≤ x ∧ x < shf.cursor) ∧ List.Pairwise (· < ·) ids := by
  induction acts generalizing st sh with
  | nil =>
    intro ids stf shf hEq
    simp only [run, Prod.mk.injEq] at hEq
    obtain ⟨rfl, rfl, rfl⟩ := hEq
    refine ⟨h, Nat.le_refl _, ?_, List.Pairwise.nil⟩
    intro x hx
    cases hx
  | cons a rest ih =>
    intro ids stf shf hEq
    simp only [run] at hEq
    rcases hA : actStep a st sh with ⟨ids1, st1, sh1⟩
    have h1 := actStep_props a st sh h ids1 st1 sh1 hA
    obtain ⟨hinv1, hc1, hbnd1, hpw1⟩ := h1
    rw [hA] at hEq
    dsimp only at hEq
    rcases hR : run rest st1 sh1 with ⟨ids2, st2, sh2⟩
    have h2 := ih st1 sh1 hinv1 ids2 st2 sh2 hR
    obtain ⟨hinv2, hc2, hbnd2, hpw2⟩ := h2
    rw [hR] at hEq
    dsimp only at hEq
    simp only [Prod.mk.injEq] at hEq
    obtain ⟨rfl, rfl, rfl⟩ := hEq
    refine ⟨hinv2, Nat.le_trans hc1 hc2, ?_, ?_⟩
    · intro x hx
      rcases List.mem_append.mp hx with hx1 | hx2
      · obtain ⟨hlo, hhi⟩ := hbnd1 x hx1
        exact ⟨hlo, Nat.lt_of_lt_of_le hhi hc2⟩
      · obtain ⟨hlo, hhi⟩ := hbnd2 x hx2
        exact ⟨Nat.le_trans hc1 hlo, hhi⟩
    · rw [List.pairwise_append]
      refine ⟨hpw1, hpw2, ?_⟩
      intro x hx1 y hy2
      obtain ⟨_, hhi⟩ := hbnd1 x hx1
      obtain ⟨hlo, _⟩ := hbnd2 y hy2
      exact Nat.lt_of_lt_of_le hhi hlo

/-- C1: for every sequence of calls made against one active shard context
(obtained by `acquire`, and interleaved with arbitrary other calls, life-cycle
signals and competing range increments), the concatenation of all task IDs
returned by `GenerateTaskID`/`GenerateTaskIDs` is strictly increasing and
contains no repeated value, including across internal range renewals that
occur between or within calls. -/
theorem claim_C1_taskIDs_strictly_increasing (st0 : Store) (size : Nat)
    (acts : List Act) (h : 1 ≤ size) :
    List.Pairwise (· < ·) (run acts (acquire st0 size).1 (acquire st0 size).2).1 ∧
    ((run acts (acquire st0 size).1 (acquire st0 size).2).1).Nodup := by
  have hinv : ShardInv (acquire st0 size).2 := by
    unfold ShardInv maxTaskID acquire
    exact ⟨Nat.le_add_right _ _, h⟩
  rcases hR : run acts (acquire st0 size).1 (acquire st0 size).2 with ⟨ids, stf, shf⟩
  have hp := run_props acts _ _ hinv ids stf shf hR
  dsimp only
  exact ⟨hp.2.2.2, List.Pairwise.imp (fun hlt => Nat.ne_of_lt hlt) hp.2.2.2⟩

/-- Witness for C1: with `rangeSize = 2`, a batch of three followed by two
single generations crosses two internal range renewals and still returns the
strictly increasing sequence `[8, 9, 10, 11, 12]`. -/
theorem claim_C1_witness :
    (1 : Nat) ≤ 2 ∧
    (run [Act.call (Op.generateTaskIDs 3), Act.call Op.generateTaskID,
        Act.call Op.generateTaskID]
      (acquire ⟨3, [], []⟩ 2).1 (acquire ⟨3, [], []⟩ 2).2).1 = [8, 9, 10, 11, 12] ∧
    List.Pairwise (· < ·)
      (run [Act.call (Op.generateTaskIDs 3), Act.call Op.generateTaskID,
          Act.call Op.generateTaskID]
        (acquire ⟨3, [], []⟩ 2).1 (acquire ⟨3, [], []⟩ 2).2).1 := by
  refine ⟨by decide, by decide, ?_⟩
  exact (claim_C1_taskIDs_strictly_increasing ⟨3, [], []⟩ 2
    [Act.call (Op.generateTaskIDs 3), Act.call Op.generateTaskID,
      Act.call Op.generateTaskID] (by decide)).1

/-- C2: once a shard context is in the `Invalid` or `Stopped` state, every
subsequent fallible call on it fails with `OwnershipLost` while leaving both
the persisted store and the context untouched (no I/O, no task-ID or
queue-state write observable after the point of loss), the dead state is
preserved by every further step (the transition is irreversible), and
`UnloadForOwnershipLost`/`FinishStop` land in a dead state. -/
theorem claim_C2_dead_context_fails_fast (st : Store) (sh : Shard) :
    (∀ op, isDead sh → callStep op st sh = (.error .ownershipLost, st, sh)) ∧
    (∀ a, isDead sh → isDead (actStep a st sh).2.2) ∧
    isDead (unloadForOwnershipLost sh) ∧ isDead (finishStop sh) := by
  refine ⟨?_, ?_, Or.inr rfl, Or.inr rfl⟩
  · intro op hd
    cases op <;>
      simp [callStep, generateTaskID, generateTaskIDs, setQueueState,
        updateReplicatorDLQAckLevel, updateRemoteReaderInfo, assertOwnership, hd]
  · intro a hd
    cases a with
    | call op =>
      have hc : callStep op st sh = (.error .ownershipLost, st, sh) := by
        cases op <;>
          simp [callStep, generateTaskID, generateTaskIDs, setQueueState,
            updateReplicatorDLQAckLevel, updateRemoteReaderInfo, assertOwnership, hd]
      simp [actStep, hc, hd]
    | updateRemoteClusterInfo c a t => simp [actStep, updateRemoteClusterInfo, hd]
    | unload => exact Or.inr rfl
    | finishStop => exact Or.inr rfl
    | bump => exact hd

/-- Witness for C2: on a concrete `Invalid` context, `GenerateTaskID` and
`SetQueueState` fail with `OwnershipLost` leaving store and context
untouched, and a further unload keeps the context dead. -/
theorem claim_C2_witness :
    callStep Op.generateTaskID ⟨4, [], []⟩
        ⟨.invalid, 4, 10, 42, [], []⟩ =
      (.error .ownershipLost, ⟨4, [], []⟩, ⟨.invalid, 4, 10, 42, [], []⟩) ∧
    callStep (Op.setQueueState 0 ⟨7⟩) ⟨4, [], []⟩
        ⟨.invalid, 4, 10, 42, [], []⟩ =
      (.error .ownershipLost, ⟨4, [], []⟩, ⟨.invalid, 4, 10, 42, [], []⟩) ∧
    isDead (actStep Act.unload ⟨4, [], []⟩ ⟨.invalid, 4, 10, 42, [], []⟩).2.2 := by
  refine ⟨?_, ?_, ?_⟩
  · exact (claim_C2_dead_context_fails_fast ⟨4, [], []⟩
      ⟨.invalid, 4, 10, 42, [], []⟩).1 Op.generateTaskID (Or.inl rfl)
  · exact (claim_C2_dead_context_fails_fast ⟨4, [], []⟩
      ⟨.invalid, 4, 10, 42, [], []⟩).1 (Op.setQueueState 0 ⟨7⟩) (Or.inl rfl)
  · exact (claim_C2_dead_context_fails_fast ⟨4, [], []⟩
      ⟨.invalid, 4, 10, 42, [], []⟩).2.1 Act.unload (Or.inl rfl)

/-- Counterexample to C6 as stated: with watermark 10 persisted for category
0 and a valid (active, correctly fenced) context, `SetQueueState` carrying
the lower watermark 5 is neither rejected nor a no-op: the call succeeds and
the persisted watermark becomes 5 < 10.  (§4.4: the tracker persists the
caller-supplied state; watermark policy lives in the out-of-scope
task-processing pipeline.) -/
theorem claim_C6_counterexample :
    lookupKey 0 (Store.queueStates ⟨4, [(0, ⟨10⟩)], []⟩) = some ⟨10⟩ ∧
    (setQueueState 0 ⟨5⟩ ⟨4, [(0, ⟨10⟩)], []⟩ ⟨.active, 4, 1000, 4000, [], []⟩).1 = .ok () ∧
    lookupKey 0
      (setQueueState 0 ⟨5⟩ ⟨4, [(0, ⟨10⟩)], []⟩
        ⟨.active, 4, 1000, 4000, [], []⟩).2.1.queueStates = some ⟨5⟩ ∧
    (5 : Nat) < 10 :=
  ⟨rfl, rfl, rfl, by decide⟩

/-- C6 (amended): `SetQueueState` persists the caller-supplied state exactly
as given, fenced by the range ID — a lower watermark is applied, not rejected
and not ignored; consequently the persisted watermark never decreases
provided callers only submit non-decreasing watermarks, and a call on a
stale range fails with `OwnershipLost`, leaving the store unchanged and
invalidating the context. -/
theorem claim_C6_setQueueState_persists_caller_state (st : Store) (sh : Shard)
    (cat : Nat) (q : QueueState) :
    (sh.status = .active → st.rangeID = sh.rangeID →
      setQueueState cat q st sh =
        (.ok (), { st with queueStates := setKey cat q st.queueStates }, sh) ∧
      lookupKey cat (setQueueState cat q st sh).2.1.queueStates = some q) ∧
    (sh.status = .active → st.rangeID ≠ sh.rangeID →
      setQueueState cat q st sh = (.error .ownershipLost, st, { sh with status := .invalid })) ∧
    (∀ w, lookupKey cat st.queueStates = some w → w.watermark ≤ q.watermark →
      sh.status = .active → st.rangeID = sh.rangeID →
      w.watermark ≤
        ((lookupKey cat (setQueueState cat q st sh).2.1.queueStates).getD ⟨0⟩).watermark) := by
  refine ⟨?_, ?_, ?_⟩
  · intro h1 h2
    have hnd : ¬ isDead sh := by simp [isDead, h1]
    constructor
    · unfold setQueueState
      rw [if_neg hnd, if_pos h2]
    · unfold setQueueState
      rw [if_neg hnd, if_pos h2]
      dsimp only
      rw [lookupKey_setKey_self]
  · intro h1 h2
    have hnd : ¬ isDead sh := by simp [isDead, h1]
    unfold setQueueState
    rw [if_neg hnd, if_neg h2]
  · intro w hw hle h1 h2
    have hnd : ¬ isDead sh := by simp [isDead, h1]
    unfold setQueueState
    rw [if_neg hnd, if_pos h2]
    dsimp only
    rw [lookupKey_setKey_self]
    exact hle

/-- Witness for the amended C6: a successful fenced write persists the
supplied watermark 20 over the previous 10. -/
theorem claim_C6_witness :
    setQueueState 0 ⟨20⟩ ⟨4, [(0, ⟨10⟩)], []⟩ ⟨.active, 4, 1000, 4000, [], []⟩ =
      (.ok (), ⟨4, [(0, ⟨20⟩)], []⟩, ⟨.active, 4, 1000, 4000, [], []⟩) ∧
    lookupKey 0
      (setQueueState 0 ⟨20⟩ ⟨4, [(0, ⟨10⟩)], []⟩
        ⟨.active, 4, 1000, 4000, [], []⟩).2.1.queueStates = some ⟨20⟩ := by
  have h := (claim_C6_setQueueState_persists_caller_state ⟨4, [(0, ⟨10⟩)], []⟩
    ⟨.active, 4, 1000, 4000, [], []⟩ 0 ⟨20⟩).1 rfl rfl
  exact ⟨h.1, h.2⟩

/-- The §8 concrete scenario: shard with persisted `rangeID = 3` and
`rangeSize = 1000`, freshly acquired. -/
def scenarioAcquire : Store × Shard := acquire ⟨3, [], []⟩ 1000

/-- The scenario after `GenerateTaskIDs(3)` on the acquired context. -/
def scenarioAfterBatch : Except ShardErr (List Nat) × Store × Shard :=
  generateTaskIDs 3 scenarioAcquire.1 scenarioAcquire.2

/-- The persisted store after a competing owner bumps the range ID to 5. -/
def scenarioStoreBumped : Store := bumpRange scenarioAfterBatch.2.1

/-- Counterexample to C7 as stated: after acquisition (range ID 4, block
`[4000, 5000)`) and `GenerateTaskIDs(3) = [4000, 4001, 4002]`, a competing
owner bumps the persisted range ID to 5 — but the next `GenerateTaskID` on
the original context does *not* fail with `OwnershipLost`: it succeeds with
4003, served from the still-unexhausted in-memory block (the loss has not
yet been observed by any fenced operation). -/
theorem claim_C7_counterexample :
    scenarioAcquire.2.rangeID = 4 ∧
    scenarioAcquire.2.cursor = 4000 ∧
    maxTaskID scenarioAcquire.2 = 5000 ∧
    scenarioAfterBatch.1 = .ok [4000, 4001, 4002] ∧
    scenarioStoreBumped.rangeID = 5 ∧
    (generateTaskID scenarioStoreBumped scenarioAfterBatch.2.2).1 = .ok 4003 :=
  ⟨rfl, rfl, rfl, rfl, rfl, rfl⟩

/-- C7 (amended): with persisted `rangeID = 3` and `rangeSize = 1000`,
acquisition increments the range ID to 4 and exposes exactly the block
`[4000, 5000)`; `GenerateTaskIDs(3)` returns `[4000, 4001, 4002]`; after a
competing owner bumps the range ID to 5, the original context's next fenced
operation (here `AssertOwnership`; likewise a renewal on block exhaustion)
fails with `OwnershipLost` and invalidates the context, after which
`GenerateTaskID` fails with `OwnershipLost`. -/
theorem claim_C7_scenario_ownership_lost :
    scenarioAcquire.2.rangeID = 4 ∧
    scenarioAcquire.2.cursor = 4000 ∧
    maxTaskID scenarioAcquire.2 = 5000 ∧
    scenarioAfterBatch.1 = .ok [4000, 4001, 4002] ∧
    scenarioStoreBumped.rangeID = 5 ∧
    (assertOwnership scenarioStoreBumped scenarioAfterBatch.2.2).1 = .error .ownershipLost ∧
    (assertOwnership scenarioStoreBumped scenarioAfterBatch.2.2).2.2.status = .invalid ∧
    (generateTaskID (assertOwnership scenarioStoreBumped scenarioAfterBatch.2.2).2.1
      (assertOwnership scenarioStoreBumped scenarioAfterBatch.2.2).2.2).1 =
        .error .ownershipLost :=
  ⟨rfl, rfl, rfl, rfl, rfl, rfl, rfl, rfl⟩
